import Mathlib

/-!
Verification development for the `pm_automation` repository: a shallow
embedding of its budget-aggregation frontend code (the `ClientDashboard`
and `ProjectDashboard` React components and the `DataConfiguration`
review table) together with spec-modelled definitions of the backend
pieces that are described in the design document (locale-aware CSV number
parsing, pseudonymizing anonymization engine, utilization).

JavaScript numbers are embedded two ways: the exact rational denotation
`ℚ` for functional-correctness claims, and an explicit IEEE-754 binary64
rounding model (`roundDouble`) for the claim about decimal versus binary
floating-point arithmetic.
-/

namespace PM

/-- One allocation entry inside a profile's `workstreams` array, as served
by `/api/profiles`: `{workstream_id, days_allocated}`. -/
structure Allocation where
  workstream_id : Nat
  days_allocated : ℚ
  deriving Repr, DecidableEq

/-- A profile record served by `/api/profiles`:
`{id, name, daily_rate, workstreams}`. -/
structure Profile where
  id : Nat
  name : String
  daily_rate : ℚ
  workstreams : List Allocation
  deriving Repr, DecidableEq

/-- A workstream record served by `/api/workstreams`:
`{id, name, description, status}`. -/
structure Workstream where
  id : Nat
  name : String
  description : String
  status : String
  deriving Repr, DecidableEq

/-- One row of the computed `workstreamBudgets` state:
`{id, name, totalBudget, status}`. -/
structure BudgetEntry where
  id : Nat
  name : String
  totalBudget : ℚ
  status : String
  deriving Repr, DecidableEq

/-- `fetchWorkstreamBudgets` / `fetchBudgets` (identical in
`ClientDashboard` and `ProjectDashboard`): for one workstream, the
flattened list of its allocations, each paired with the owning profile's
`daily_rate`.
`profiles.flatMap(profile => profile.workstreams.filter(ws =>
ws.workstream_id === workstream.id).map(ws => ({...ws, daily_rate:
profile.daily_rate})))`. -/
def workstreamAllocations (profiles : List Profile) (w : Workstream) :
    List (ℚ × ℚ) :=
  profiles.flatMap fun p =>
    (p.workstreams.filter fun a => a.workstream_id = w.id).map
      fun a => (a.days_allocated, p.daily_rate)

/-- The `reduce((sum, allocation) => sum + allocation.days_allocated *
allocation.daily_rate, 0)` accumulation. -/
def totalBudget (profiles : List Profile) (w : Workstream) : ℚ :=
  (workstreamAllocations profiles w).foldl
    (fun sum a => sum + a.1 * a.2) 0

/-- The `workstreams.map(...)` producing the dashboard's
`workstreamBudgets` rows. -/
def fetchWorkstreamBudgets (profiles : List Profile)
    (workstreams : List Workstream) : List BudgetEntry :=
  workstreams.map fun w =>
    { id := w.id, name := w.name, totalBudget := totalBudget profiles w,
      status := w.status }

/-- Spec-side definition, following the spec's words:
`p.days_allocated_on(ws)` is the total days the profile allocates to the
workstream. -/
def days_allocated_on (p : Profile) (w : Workstream) : ℚ :=
  ((p.workstreams.filter fun a => a.workstream_id = w.id).map
    fun a => a.days_allocated).sum

/-- Spec-side definition, following the spec's words:
`workstream_budget(ws) = Σ over profiles p allocated to ws of
(p.days_allocated_on(ws) × p.daily_rate)`. -/
def workstream_budget (profiles : List Profile) (w : Workstream) : ℚ :=
  (profiles.map fun p => days_allocated_on p w * p.daily_rate).sum

/-- `getCurrencySymbol`'s symbol table, the object literal in
`ClientDashboard`. -/
def symbols : List (String × String) :=
  [("USD", "$"), ("EUR", "€"), ("GBP", "£"), ("JPY", "¥"),
   ("AUD", "A$"), ("CAD", "C$"), ("CHF", "CHF"), ("CNY", "¥"),
   ("INR", "₹")]

/-- A JavaScript value the `symbols[currency] || currency` expression
can produce: a string, or a truthy non-string inherited from
`Object.prototype` (a function such as `toString`, or the `__proto__`
accessor's object result), tagged by the property name it was read
from. -/
inductive JsValue where
  | str : String → JsValue
  | inherited : String → JsValue
  deriving Repr, DecidableEq

/-- Property names an object literal inherits from `Object.prototype`;
indexing the literal with any of these yields a truthy non-string
value (a function, or for `__proto__` the prototype object). -/
def protoKeys : List String :=
  ["constructor", "hasOwnProperty", "isPrototypeOf",
   "propertyIsEnumerable", "toLocaleString", "toString", "valueOf",
   "__defineGetter__", "__defineSetter__", "__lookupGetter__",
   "__lookupSetter__", "__proto__"]

/-- `getCurrencySymbol = (currency) => symbols[currency] || currency`.
The object-literal index first finds own properties (the nine symbol
entries, all truthy strings), then the members inherited from
`Object.prototype` (all truthy, none of them strings), and is
`undefined` otherwise; `|| currency` replaces only the `undefined`
case with the input. -/
def getCurrencySymbol (currency : String) : JsValue :=
  match symbols.lookup currency with
  | some s => JsValue.str s
  | none =>
      if currency ∈ protoKeys then JsValue.inherited currency
      else JsValue.str currency

/-- The two-profile, one-workstream scenario from the spec:
`(P1,"Alice",WS1,10)` and `(P2,"Bob",WS1,5)` with rates 100 and 200. -/
def alice : Profile :=
  { id := 1, name := "Alice", daily_rate := 100,
    workstreams := [{ workstream_id := 1, days_allocated := 10 }] }

/-- Second profile of the spec scenario. -/
def bob : Profile :=
  { id := 2, name := "Bob", daily_rate := 200,
    workstreams := [{ workstream_id := 1, days_allocated := 5 }] }

/-- The workstream WS1 of the spec scenario. -/
def ws1 : Workstream :=
  { id := 1, name := "WS1", description := "", status := "active" }

/-! ## Profile budgets (`ProjectDashboard.fetchBudgets`, second half)

The JavaScript looks up `workstreams.find(ws => ws.id ===
allocation.workstream_id)` and immediately dereferences
`workstream.name`; when `find` returns `undefined` this throws a
`TypeError`. The embedding makes the fallible dereference explicit with
`Option`: `none` is the fault. -/

/-- One row of a profile's `workstreamAllocations` in the profile-budget
computation: `{workstreamName, daysAllocated, budget}`. -/
structure ProfileAllocEntry where
  workstreamName : String
  daysAllocated : ℚ
  budget : ℚ
  deriving Repr, DecidableEq

/-- One row of the computed `profileBudgets` state. -/
structure ProfileBudgetEntry where
  id : Nat
  name : String
  dailyRate : ℚ
  workstreamAllocations : List ProfileAllocEntry
  totalBudget : ℚ
  deriving Repr, DecidableEq

/-- Maps `f` over a list, failing as soon as `f` fails (the semantics of
a JavaScript `map` whose callback can throw). -/
def mapOrFail (f : α → Option β) : List α → Option (List β)
  | [] => some []
  | a :: as =>
    match f a, mapOrFail f as with
    | some b, some bs => some (b :: bs)
    | _, _ => none

/-- The body of the inner `map`: the unguarded
`workstream.name` dereference after `workstreams.find(...)`. -/
def profileAllocEntry (workstreams : List Workstream) (p : Profile)
    (a : Allocation) : Option ProfileAllocEntry :=
  match workstreams.find? fun w => w.id = a.workstream_id with
  | some w =>
      some { workstreamName := w.name, daysAllocated := a.days_allocated,
             budget := a.days_allocated * p.daily_rate }
  | none => none

/-- One profile's entry of `profileBudgets`, with the
`reduce((sum, allocation) => sum + allocation.budget, 0)` total. -/
def profileBudget (workstreams : List Workstream) (p : Profile) :
    Option ProfileBudgetEntry :=
  (mapOrFail (profileAllocEntry workstreams p) p.workstreams).map
    fun entries =>
      { id := p.id, name := p.name, dailyRate := p.daily_rate,
        workstreamAllocations := entries,
        totalBudget := entries.foldl (fun sum e => sum + e.budget) 0 }

/-- The `profiles.map(...)` producing `profileBudgets`; any faulting
profile faults the whole computation. -/
def fetchProfileBudgets (profiles : List Profile)
    (workstreams : List Workstream) : Option (List ProfileBudgetEntry) :=
  mapOrFail (profileBudget workstreams) profiles

/-- Every allocation of every profile refers to a workstream id present
in the fetched workstream list. -/
def allAllocationsResolve (profiles : List Profile)
    (workstreams : List Workstream) : Prop :=
  ∀ p ∈ profiles, ∀ a ∈ p.workstreams,
    ∃ w ∈ workstreams, w.id = a.workstream_id

instance (profiles : List Profile) (workstreams : List Workstream) :
    Decidable (allAllocationsResolve profiles workstreams) := by
  unfold allAllocationsResolve; infer_instance

/-- A profile whose only allocation points at workstream id 99, used as
the faulting input. -/
def strayProfile : Profile :=
  { id := 7, name := "Stray", daily_rate := 50,
    workstreams := [{ workstream_id := 99, days_allocated := 1 }] }

/-! ## Data-review rendering (`DataConfiguration`)

The Profiles & Allocations tab renders, per profile, one table row per
allocation (guarding the workstream lookup with
`workstream ? workstream.name : 'Unknown'`), or a single dash row when
`profile.workstreams.length > 0` is false. A cell holds either a string
or a raw number. -/

/-- A rendered table cell: JSX interpolates either a string or a
number. -/
inductive Cell where
  | str : String → Cell
  | num : ℚ → Cell
  deriving Repr, DecidableEq

/-- One rendered row of the Profiles & Allocations table:
Name, Daily Rate, Workstream, Days Allocated. -/
structure ReviewRow where
  nameCell : Cell
  rateCell : Cell
  workstreamCell : Cell
  daysCell : Cell
  deriving Repr, DecidableEq

/-- The row rendered for one allocation:
`<TableCell>{workstream ? workstream.name : 'Unknown'}</TableCell>`. -/
def allocationRow (workstreams : List Workstream) (p : Profile)
    (a : Allocation) : ReviewRow :=
  { nameCell := Cell.str p.name, rateCell := Cell.num p.daily_rate,
    workstreamCell :=
      Cell.str
        (match workstreams.find? fun w => w.id = a.workstream_id with
         | some w => w.name
         | none => "Unknown"),
    daysCell := Cell.num a.days_allocated }

/-- The rows rendered for one profile: one per allocation, or the single
dash row when the profile's `workstreams` array is empty. -/
def profileReviewRows (workstreams : List Workstream) (p : Profile) :
    List ReviewRow :=
  match p.workstreams with
  | [] =>
      [{ nameCell := Cell.str p.name, rateCell := Cell.num p.daily_rate,
         workstreamCell := Cell.str "-", daysCell := Cell.str "-" }]
  | _ => p.workstreams.map (allocationRow workstreams p)

/-- The whole Profiles & Allocations table body. -/
def dataReviewRows (profiles : List Profile)
    (workstreams : List Workstream) : List ReviewRow :=
  profiles.flatMap (profileReviewRows workstreams)

/-! ## Utilization (spec-modelled) and the zero-allocation edge case -/

/-- Modelled from the spec: the Aggregation Engine's `utilization`
(`app/utils` backend, not present under `src/`): `utilization(ws) =
spent / budget`, where division by a zero budget yields an explicit
`undefined` ("not applicable") value rather than NaN, zero, or an
error. `none` is the explicit not-applicable value. -/
def utilization (spent budget : ℚ) : Option ℚ :=
  if budget = 0 then none else some (spent / budget)

/-- A second workstream record carrying the same id as `ws1`. -/
def ws1dup : Workstream :=
  { id := 1, name := "WS1 copy", description := "", status := "active" }

/-! ## Anonymization engine (spec-modelled)

The anonymization engine lives in the Python backend
(`app/utils/data_processor.py` with `DataPrivacyManager`), which is not
present under `src/`; it is modelled here from the spec: pseudonyms are
deterministic tokens `Profile_<n>`, assigned per dataset by first-seen
canonical id in ascending id order, recorded once and reused for every
public read. -/

/-- Modelled from the spec: a canonical profile held by the Secure
Store, carrying the raw (identifying) name. -/
structure CanonicalProfile where
  id : Nat
  name : String
  daily_rate : ℚ
  workstreams : List Allocation
  deriving Repr, DecidableEq

/-- Modelled from the spec: the anonymized projection of a canonical
profile — structurally identical, name replaced by a pseudonym. -/
structure AnonymizedProfile where
  id : Nat
  name : String
  daily_rate : ℚ
  workstreams : List Allocation
  deriving Repr, DecidableEq

/-- Decimal digits of `n`, least significant first, driven by fuel
(`fuel ≥ n` suffices). -/
def natDigitsRev (fuel n : Nat) : List Nat :=
  match fuel with
  | 0 => []
  | f + 1 => if n = 0 then [] else n % 10 :: natDigitsRev f (n / 10)

/-- The numeric value of a least-significant-first digit list. -/
def ofDigitsRev : List Nat → Nat
  | [] => 0
  | d :: ds => d + 10 * ofDigitsRev ds

/-- The character of one decimal digit. -/
def digitChar10 (d : Nat) : Char := Char.ofNat (48 + d)

/-- Decimal rendering of a natural number. -/
def natToStr (n : Nat) : String :=
  if n = 0 then "0"
  else String.mk ((natDigitsRev n n).reverse.map digitChar10)

/-- Modelled from the spec: the pseudonym token `Profile_<n>`. -/
def pseudonym (n : Nat) : String := "Profile_" ++ natToStr n

/-- Insert into an ascending list. -/
def insertAsc (i : Nat) : List Nat → List Nat
  | [] => [i]
  | j :: js => if i ≤ j then i :: j :: js else j :: insertAsc i js

/-- Insertion sort, ascending. -/
def sortAsc : List Nat → List Nat
  | [] => []
  | i :: is => insertAsc i (sortAsc is)

/-- Modelled from the spec: the pseudonym-mapping table's key order —
the distinct canonical ids of the dataset in ascending order. -/
def assignedIds (ds : List CanonicalProfile) : List Nat :=
  sortAsc (ds.map fun p => p.id).dedup

/-- Position of `i` in a list, `none` when absent. -/
def idxIn (i : Nat) : List Nat → Option Nat
  | [] => none
  | j :: js => if i = j then some 0 else (idxIn i js).map (· + 1)

/-- Modelled from the spec: the pseudonym recorded for canonical id `i`
in the dataset's mapping table (1-based, in assignment order). -/
def pseudonymOf (ds : List CanonicalProfile) (i : Nat) : Option String :=
  (idxIn i (assignedIds ds)).map fun k => pseudonym (k + 1)

/-- Modelled from the spec: the anonymized projection of one profile;
`none` is the fail-closed `UnmappedEntityError`. -/
def anonymizeProfile (ds : List CanonicalProfile) (p : CanonicalProfile) :
    Option AnonymizedProfile :=
  (pseudonymOf ds p.id).map fun s =>
    { id := p.id, name := s, daily_rate := p.daily_rate,
      workstreams := p.workstreams }

/-- Modelled from the spec: the `GET profiles` public read — the
anonymized projection of the whole dataset. -/
def readProfilesEndpoint (ds : List CanonicalProfile) :
    Option (List AnonymizedProfile) :=
  mapOrFail (anonymizeProfile ds) ds

/-- The profile names appearing in the `GET profiles` response body. -/
def publicProfileNames (ds : List CanonicalProfile) : List String :=
  match readProfilesEndpoint ds with
  | some l => l.map fun p => p.name
  | none => []

/-- A dataset whose single raw name is itself a pseudonym token. -/
def selfNamedDataset : List CanonicalProfile :=
  [{ id := 1, name := "Profile_1", daily_rate := 100, workstreams := [] }]

/-! ## Locale-aware numeric parsing (spec-modelled)

The CSV number parser (`process_project_data` in
`app/utils/data_processor.py`) is not present under `src/`; it is
modelled from the spec: numeric fields follow either the dot convention
(dot decimal separator, comma grouping) or the comma convention (comma
decimal separator, dot grouping), auto-detected per file over a column's
values; files valid under both conventions with materially different
results are rejected. -/

/-- Numeric value of a digit character. -/
def digitVal (c : Char) : Nat := c.toNat - 48

/-- Value of a most-significant-first digit string. -/
def digitsVal (l : List Char) : Nat :=
  l.foldl (fun acc c => acc * 10 + digitVal c) 0

/-- Modelled from the spec: a valid integer part under a given grouping
separator — either plain digits, or digit groups of exactly three after
a leading group of one to three. -/
def validIntPart (groupSep : Char) (ip : List Char) : Bool :=
  match ip.splitOn groupSep with
  | [] => false
  | [g] => !g.isEmpty && g.all (fun c => c.isDigit)
  | g :: gs =>
      !g.isEmpty && g.length ≤ 3 && g.all (fun c => c.isDigit) &&
        gs.all fun h => h.length = 3 && h.all (fun c => c.isDigit)

/-- Modelled from the spec: parse a numeric field under a fixed
convention given by decimal and grouping separators. -/
def parseWith (decSep groupSep : Char) (s : String) : Option ℚ :=
  match s.data.splitOn decSep with
  | [ip] =>
      if validIntPart groupSep ip then
        some (mkRat (digitsVal (ip.filter fun c => c != groupSep)) 1)
      else none
  | [ip, fp] =>
      if validIntPart groupSep ip && !fp.isEmpty &&
          fp.all (fun c => c.isDigit) then
        some (mkRat
          (digitsVal ((ip.filter fun c => c != groupSep) ++ fp))
          (10 ^ fp.length))
      else none
  | _ => none

/-- The plain dot convention (`1,234.56`). -/
def parseDotConvention (s : String) : Option ℚ := parseWith '.' ',' s

/-- The comma-as-decimal-separator convention (`1.234,56`). -/
def parseCommaConvention (s : String) : Option ℚ := parseWith ',' '.' s

/-- Modelled from the spec: auto-detect the convention over a column's
values; a file valid under both conventions is accepted only when both
readings agree (otherwise rejected as ambiguous), and a file valid under
neither is rejected. -/
def detectAndParseColumn (col : List String) : Option (List ℚ) :=
  match mapOrFail parseDotConvention col, mapOrFail parseCommaConvention col with
  | some vd, some vc => if vd = vc then some vd else none
  | some vd, none => some vd
  | none, some vc => some vc
  | none, none => none

/-- Modelled from the spec: serialize a (non-negative, decimal)
canonical numeric value back to CSV text in locale-normalized dot
notation. -/
def serializeQ (q : ℚ) : String :=
  let k := ((List.range 31).find? fun k => 10 ^ k % q.den = 0).getD 0
  let scaled := (q.num * ((10 : ℤ) ^ k) / (q.den : ℤ)).toNat
  if k = 0 then natToStr scaled
  else
    natToStr (scaled / 10 ^ k) ++ "." ++
      (List.replicate (k - (natToStr (scaled % 10 ^ k)).length) '0').asString
      ++ natToStr (scaled % 10 ^ k)

/-! ## Binary floating-point model of the budget arithmetic

JavaScript numbers are IEEE-754 binary64 values; the dashboard's
`reduce` over `days_allocated * daily_rate` therefore rounds after every
multiplication and addition. `roundDouble` is the round-to-nearest,
ties-to-even rounding of a rational to 53 significant bits, covering the
normal finite range (overflow and subnormals do not occur in the
scenarios considered). -/

/-- `2 ^ e` over ℚ for a possibly negative exponent. -/
def pow2 (e : ℤ) : ℚ :=
  if 0 ≤ e then (2 : ℚ) ^ e.toNat else 1 / (2 : ℚ) ^ (-e).toNat

/-- `⌊log₂ n⌋` by fuel-driven halving (`fuel ≥ n` suffices). -/
def bitLen (fuel n : Nat) : Nat :=
  match fuel with
  | 0 => 0
  | f + 1 => if n ≤ 1 then 0 else bitLen f (n / 2) + 1

/-- `⌊log₂ n⌋` for positive `n`. -/
def natLog2 (n : Nat) : Nat := bitLen n n

/-- `⌊log₂ q⌋` for positive `q`, from the bit lengths of numerator and
denominator. -/
def floorLog2 (q : ℚ) : ℤ :=
  let e : ℤ := (natLog2 q.num.toNat : ℤ) - (natLog2 q.den : ℤ)
  if pow2 e ≤ q then e else e - 1

/-- Round-to-nearest (ties to even) IEEE-754 binary64 value of a
rational. -/
def roundDouble (q : ℚ) : ℚ :=
  if q = 0 then 0
  else
    let s : ℚ := if q < 0 then -1 else 1
    let a : ℚ := |q|
    let e : ℤ := floorLog2 a
    let scaled : ℚ := a * pow2 (52 - e)
    let fl : ℤ := ⌊scaled⌋
    let r : ℚ := scaled - (fl : ℚ)
    let m : ℤ :=
      if r < 1 / 2 then fl
      else if 1 / 2 < r then fl + 1
      else if 2 ∣ fl then fl else fl + 1
    s * (m : ℚ) * pow2 (e - 52)

/-- JavaScript `+` on numbers: exact sum, rounded. -/
def jsAdd (x y : ℚ) : ℚ := roundDouble (x + y)

/-- JavaScript `*` on numbers: exact product, rounded. -/
def jsMul (x y : ℚ) : ℚ := roundDouble (x * y)

/-- The budget `reduce` under JavaScript number semantics: every
`sum + days * rate` step rounds to binary64. -/
def totalBudgetFloat (profiles : List Profile) (w : Workstream) : ℚ :=
  (workstreamAllocations profiles w).foldl
    (fun sum a => jsAdd sum (jsMul a.1 a.2)) 0

/-- A profile whose uploaded decimal allocation values 0.1 and 0.2
arrive in the frontend as the binary64 numbers JSON parsing yields. -/
def floatProfile : Profile :=
  { id := 1, name := "A", daily_rate := 1,
    workstreams :=
      [{ workstream_id := 1, days_allocated := roundDouble (1 / 10) },
       { workstream_id := 1, days_allocated := roundDouble (2 / 10) }] }

/-- The same profile with the decimal values kept exact. -/
def decimalProfile : Profile :=
  { id := 1, name := "A", daily_rate := 1,
    workstreams :=
      [{ workstream_id := 1, days_allocated := 1 / 10 },
       { workstream_id := 1, days_allocated := 2 / 10 }] }

section Lemmas

/-- Folding `sum + f a` over a list from `0` is the sum of the mapped
list. -/
theorem foldl_add_eq_sum {α : Type} (f : α → ℚ) (l : List α) (init : ℚ) :
    l.foldl (fun sum a => sum + f a) init = init + (l.map f).sum := by
  induction l generalizing init with
  | nil => simp
  | cons a as ih => simp [List.foldl_cons, ih, add_assoc]

/-- The dashboard's accumulated budget for one workstream is the sum of
`days × rate` over the flattened allocation list. -/
theorem totalBudget_eq_sum (profiles : List Profile) (w : Workstream) :
    totalBudget profiles w =
      ((workstreamAllocations profiles w).map fun a => a.1 * a.2).sum := by
  unfold totalBudget
  rw [foldl_add_eq_sum (fun a : ℚ × ℚ => a.1 * a.2)]
  simp

/-- Summing `days × rate` over one profile's filtered allocations equals
the profile's total days on the workstream times its rate. -/
theorem profile_contribution (p : Profile) (w : Workstream) :
    (((p.workstreams.filter fun a => a.workstream_id = w.id).map
        fun a => (a.days_allocated, p.daily_rate)).map
      fun a : ℚ × ℚ => a.1 * a.2).sum =
      days_allocated_on p w * p.daily_rate := by
  unfold days_allocated_on
  induction p.workstreams.filter fun a => a.workstream_id = w.id with
  | nil => simp
  | cons a as ih =>
      simp only [List.map_cons, List.sum_cons, List.map_map] at ih ⊢
      simp [ih, add_mul]

/-- The computed `totalBudget` agrees with the spec's
`workstream_budget` formula. -/
theorem totalBudget_eq_workstream_budget (profiles : List Profile)
    (w : Workstream) :
    totalBudget profiles w = workstream_budget profiles w := by
  rw [totalBudget_eq_sum]
  unfold workstreamAllocations workstream_budget
  induction profiles with
  | nil => simp
  | cons p ps ih =>
      simp only [List.flatMap_cons, List.map_append, List.sum_append,
        List.map_cons, List.sum_cons, ih]
      rw [profile_contribution]

end Lemmas

section ProfileBudgetLemmas

/-- `mapOrFail` succeeds when `f` succeeds on every element. -/
theorem mapOrFail_isSome_of_forall {f : α → Option β} {l : List α}
    (h : ∀ a ∈ l, (f a).isSome) : (mapOrFail f l).isSome := by
  induction l with
  | nil => simp [mapOrFail]
  | cons a as ih =>
      have ha := h a (List.mem_cons_self a as)
      have has := ih fun x hx => h x (List.mem_cons_of_mem a hx)
      unfold mapOrFail
      obtain ⟨b, hb⟩ := Option.isSome_iff_exists.mp ha
      obtain ⟨bs, hbs⟩ := Option.isSome_iff_exists.mp has
      simp [hb, hbs]

/-- A failing element makes `mapOrFail` fail. -/
theorem mapOrFail_eq_none_of_mem {f : α → Option β} {l : List α} {a : α}
    (hmem : a ∈ l) (hfail : f a = none) : mapOrFail f l = none := by
  induction l with
  | nil => cases hmem
  | cons x xs ih =>
      unfold mapOrFail
      rcases List.mem_cons.mp hmem with rfl | hx
      · simp [hfail]
      · rw [ih hx]
        cases f x <;> simp

/-- When its workstream resolves, an allocation's entry is built. -/
theorem profileAllocEntry_isSome {workstreams : List Workstream}
    {p : Profile} {a : Allocation}
    (h : ∃ w ∈ workstreams, w.id = a.workstream_id) :
    (profileAllocEntry workstreams p a).isSome := by
  obtain ⟨w, hw, hid⟩ := h
  have : (workstreams.find? fun w => w.id = a.workstream_id).isSome :=
    List.find?_isSome.mpr ⟨w, hw, by simp [hid]⟩
  obtain ⟨w', hw'⟩ := Option.isSome_iff_exists.mp this
  simp [profileAllocEntry, hw']

end ProfileBudgetLemmas

/-! ## Reconciliation (Σ workstream budgets vs Σ profile totals) -/

section ReconciliationLemmas

/-- Exchanging the order of a double list sum. -/
theorem list_sum_comm {α β : Type} (l1 : List α) (l2 : List β)
    (f : α → β → ℚ) :
    (l1.map fun x => (l2.map (f x)).sum).sum =
      (l2.map fun y => (l1.map fun x => f x y).sum).sum := by
  induction l1 with
  | nil => simp
  | cons x xs ih =>
      simp only [List.map_cons, List.sum_cons, ih]
      rw [← List.sum_map_add]

/-- Summing over a filtered list is summing an `if` over the whole
list. -/
theorem sum_filter_eq_sum_ite {α : Type} (q : α → Bool) (h : α → ℚ)
    (l : List α) :
    ((l.filter q).map h).sum = (l.map fun a => if q a then h a else 0).sum := by
  induction l with
  | nil => simp
  | cons a as ih =>
      by_cases hq : q a <;> simp [List.filter_cons, hq, ih]

/-- When exactly one workstream in the list carries the id `x` (the
list's ids are distinct and `x` occurs), the indicator sum collapses to
the single contribution. -/
theorem sum_ite_eq_of_unique (wss : List Workstream) (x : Nat) (c : ℚ)
    (h2 : (wss.map fun w => w.id).Nodup) (hx : ∃ w ∈ wss, w.id = x) :
    (wss.map fun w => if x = w.id then c else 0).sum = c := by
  induction wss with
  | nil => obtain ⟨w, hw, _⟩ := hx; cases hw
  | cons w ws ih =>
      simp only [List.map_cons, List.nodup_cons] at h2
      obtain ⟨hhead, htail⟩ := h2
      by_cases hxw : x = w.id
      · subst hxw
        have hzero : (ws.map fun w' => if w.id = w'.id then c else 0).sum = 0 := by
          apply List.sum_eq_zero
          intro v hv
          obtain ⟨w', hw', rfl⟩ := List.mem_map.mp hv
          have hne : w.id ≠ w'.id := by
            intro hc
            apply hhead
            rw [hc]
            exact List.mem_map_of_mem (fun w => w.id) hw'
          simp [hne]
        simp [hzero]
      · have hx' : ∃ w' ∈ ws, w'.id = x := by
          obtain ⟨w', hw', hid⟩ := hx
          rcases List.mem_cons.mp hw' with rfl | hmem
          · exact absurd hid.symm hxw
          · exact ⟨w', hmem, hid⟩
        simp [hxw, ih htail hx']

/-- Per profile, the double sum of its contributions over a
duplicate-free workstream list that covers all its allocations is the
plain sum over its allocations. -/
theorem profile_sum_over_workstreams (wss : List Workstream) (p : Profile)
    (h2 : (wss.map fun w => w.id).Nodup)
    (h1 : ∀ a ∈ p.workstreams, ∃ w ∈ wss, w.id = a.workstream_id) :
    (wss.map fun w => days_allocated_on p w * p.daily_rate).sum =
      (p.workstreams.map fun a => a.days_allocated * p.daily_rate).sum := by
  have step1 : ∀ w : Workstream,
      days_allocated_on p w * p.daily_rate =
        ((p.workstreams.filter fun a => a.workstream_id = w.id).map
          fun a => a.days_allocated * p.daily_rate).sum := by
    intro w
    rw [← profile_contribution p w, List.map_map]
    rfl
  calc (wss.map fun w => days_allocated_on p w * p.daily_rate).sum
      = (wss.map fun w =>
          (p.workstreams.map fun a =>
            if a.workstream_id = w.id then
              a.days_allocated * p.daily_rate else 0).sum).sum := by
        apply congrArg
        apply List.map_congr_left
        intro w _
        rw [step1 w, sum_filter_eq_sum_ite]
        simp
    _ = (p.workstreams.map fun a =>
          (wss.map fun w =>
            if a.workstream_id = w.id then
              a.days_allocated * p.daily_rate else 0).sum).sum := by
        rw [list_sum_comm]
    _ = (p.workstreams.map fun a => a.days_allocated * p.daily_rate).sum := by
        apply congrArg
        apply List.map_congr_left
        intro a ha
        exact sum_ite_eq_of_unique wss a.workstream_id
          (a.days_allocated * p.daily_rate) h2 (h1 a ha)

/-- Under the resolving precondition, `mapOrFail` over one profile's
allocations succeeds and the built entries carry exactly the
`days × rate` budgets. -/
theorem mapOrFail_allocs (wss : List Workstream) (p : Profile)
    (l : List Allocation)
    (h : ∀ a ∈ l, ∃ w ∈ wss, w.id = a.workstream_id) :
    ∃ es, mapOrFail (profileAllocEntry wss p) l = some es ∧
      es.map (fun e => e.budget) =
        l.map fun a => a.days_allocated * p.daily_rate := by
  induction l with
  | nil => exact ⟨[], rfl, rfl⟩
  | cons a as ih =>
      obtain ⟨w, hw, hid⟩ := h a (List.mem_cons_self a as)
      have hfind : ∃ w', (wss.find? fun w' => w'.id = a.workstream_id) = some w' :=
        Option.isSome_iff_exists.mp
          (List.find?_isSome.mpr ⟨w, hw, by simp [hid]⟩)
      obtain ⟨w', hw'⟩ := hfind
      obtain ⟨es, hes, hmap⟩ := ih fun x hx => h x (List.mem_cons_of_mem a hx)
      refine ⟨{ workstreamName := w'.name, daysAllocated := a.days_allocated,
                budget := a.days_allocated * p.daily_rate } :: es, ?_, ?_⟩
      · unfold mapOrFail
        rw [hes]
        simp [profileAllocEntry, hw']
      · simp [hmap]

/-- Under the resolving precondition, each profile's computed total is
the sum of `days × rate` over its allocations. -/
theorem profileBudget_total (wss : List Workstream) (p : Profile)
    (h : ∀ a ∈ p.workstreams, ∃ w ∈ wss, w.id = a.workstream_id) :
    ∃ e, profileBudget wss p = some e ∧
      e.totalBudget =
        (p.workstreams.map fun a => a.days_allocated * p.daily_rate).sum := by
  obtain ⟨es, hes, hmap⟩ := mapOrFail_allocs wss p p.workstreams h
  refine ⟨{ id := p.id, name := p.name, dailyRate := p.daily_rate,
            workstreamAllocations := es,
            totalBudget := es.foldl (fun sum e => sum + e.budget) 0 },
    by simp [profileBudget, hes], ?_⟩
  simp only [foldl_add_eq_sum (fun e : ProfileAllocEntry => e.budget) es 0,
    zero_add, hmap]

/-- Under the resolving precondition, the profile-budget computation
succeeds and its totals are the per-profile allocation sums. -/
theorem fetchProfileBudgets_totals (ps : List Profile)
    (wss : List Workstream) (h : allAllocationsResolve ps wss) :
    ∃ entries, fetchProfileBudgets ps wss = some entries ∧
      entries.map (fun e => e.totalBudget) =
        ps.map fun p =>
          (p.workstreams.map fun a => a.days_allocated * p.daily_rate).sum := by
  induction ps with
  | nil => exact ⟨[], rfl, rfl⟩
  | cons p ps' ih =>
      obtain ⟨e, he, htot⟩ :=
        profileBudget_total wss p (h p (List.mem_cons_self p ps'))
      obtain ⟨entries, hentries, hmap⟩ :=
        ih fun q hq => h q (List.mem_cons_of_mem p hq)
      refine ⟨e :: entries, ?_, ?_⟩
      · unfold fetchProfileBudgets at hentries ⊢
        unfold mapOrFail
        rw [he, hentries]
      · simp [hmap, htot]

end ReconciliationLemmas

section AnonymizationLemmas

/-- Fuel adequacy: with enough fuel the digit expansion is exact. -/
theorem ofDigitsRev_natDigitsRev :
    ∀ (f n : Nat), n ≤ f → ofDigitsRev (natDigitsRev f n) = n := by
  intro f
  induction f with
  | zero =>
      intro n hn
      interval_cases n
      rfl
  | succ f ih =>
      intro n hn
      by_cases h0 : n = 0
      · simp [natDigitsRev, h0, ofDigitsRev]
      · have hdiv : n / 10 ≤ f := by
          have hlt : n / 10 < n := Nat.div_lt_self (Nat.pos_of_ne_zero h0)
            (by norm_num)
          omega
        simp only [natDigitsRev, h0, if_false, ofDigitsRev, ih _ hdiv]
        exact Nat.mod_add_div n 10

/-- Every produced digit is below 10. -/
theorem natDigitsRev_lt_ten :
    ∀ (f n : Nat), ∀ d ∈ natDigitsRev f n, d < 10 := by
  intro f
  induction f with
  | zero => intro n d hd; cases hd
  | succ f ih =>
      intro n d hd
      by_cases h0 : n = 0
      · simp [natDigitsRev, h0] at hd
      · simp only [natDigitsRev, h0, if_false, List.mem_cons] at hd
        rcases hd with rfl | hd
        · exact Nat.mod_lt n (by norm_num)
        · exact ih _ d hd

/-- Digit characters distinguish digits. -/
theorem digitChar10_inj {a b : Nat} (ha : a < 10) (hb : b < 10)
    (h : digitChar10 a = digitChar10 b) : a = b := by
  have hfin : ∀ x < 10, ∀ y < 10, digitChar10 x = digitChar10 y → x = y := by
    decide
  exact hfin a ha b hb h

/-- Digit lists map injectively to character lists. -/
theorem map_digitChar10_inj :
    ∀ (l1 l2 : List Nat), (∀ d ∈ l1, d < 10) → (∀ d ∈ l2, d < 10) →
      l1.map digitChar10 = l2.map digitChar10 → l1 = l2 := by
  intro l1
  induction l1 with
  | nil =>
      intro l2 _ _ h
      cases l2 with
      | nil => rfl
      | cons b bs => simp at h
  | cons a as ih =>
      intro l2 h1 h2 h
      cases l2 with
      | nil => simp at h
      | cons b bs =>
          simp only [List.map_cons, List.cons.injEq] at h
          have hab := digitChar10_inj (h1 a (List.mem_cons_self a as))
            (h2 b (List.mem_cons_self b bs)) h.1
          have htail := ih bs (fun d hd => h1 d (List.mem_cons_of_mem a hd))
            (fun d hd => h2 d (List.mem_cons_of_mem b hd)) h.2
          rw [hab, htail]

/-- `natToStr` is injective on positive numbers. -/
theorem natToStr_inj {a b : Nat} (ha : 0 < a) (hb : 0 < b)
    (h : natToStr a = natToStr b) : a = b := by
  unfold natToStr at h
  rw [if_neg (Nat.pos_iff_ne_zero.mp ha),
    if_neg (Nat.pos_iff_ne_zero.mp hb)] at h
  have hdata : (natDigitsRev a a).reverse.map digitChar10 =
      (natDigitsRev b b).reverse.map digitChar10 := by
    exact congrArg String.data h
  have hrev : (natDigitsRev a a).reverse = (natDigitsRev b b).reverse :=
    map_digitChar10_inj _ _
      (fun d hd => natDigitsRev_lt_ten a a d (List.mem_reverse.mp hd))
      (fun d hd => natDigitsRev_lt_ten b b d (List.mem_reverse.mp hd))
      hdata
  have hdigits : natDigitsRev a a = natDigitsRev b b :=
    List.reverse_injective hrev
  calc a = ofDigitsRev (natDigitsRev a a) :=
        (ofDigitsRev_natDigitsRev a a le_rfl).symm
    _ = ofDigitsRev (natDigitsRev b b) := by rw [hdigits]
    _ = b := ofDigitsRev_natDigitsRev b b le_rfl

/-- Pseudonym tokens never collide (for positive indices). -/
theorem pseudonym_inj {m n : Nat} (hm : 0 < m) (hn : 0 < n)
    (h : pseudonym m = pseudonym n) : m = n := by
  unfold pseudonym at h
  have hdata : "Profile_".data ++ (natToStr m).data =
      "Profile_".data ++ (natToStr n).data := by
    have := congrArg String.data h
    simpa [String.data_append] using this
  have : (natToStr m).data = (natToStr n).data :=
    List.append_cancel_left hdata
  exact natToStr_inj hm hn (by
    cases hs1 : natToStr m
    cases hs2 : natToStr n
    simp only [hs1, hs2] at this ⊢
    exact congrArg String.mk this)

/-- `idxIn` finds a position when the element is present. -/
theorem idxIn_isSome_of_mem {i : Nat} {l : List Nat} (h : i ∈ l) :
    (idxIn i l).isSome := by
  induction l with
  | nil => cases h
  | cons j js ih =>
      unfold idxIn
      by_cases hij : i = j
      · simp [hij]
      · rcases List.mem_cons.mp h with rfl | hm
        · exact absurd rfl hij
        · simp only [hij, if_false, Option.isSome_map']
          exact ih hm

/-- The element at a found position is the searched one. -/
theorem idxIn_get {i : Nat} :
    ∀ {l : List Nat} {k : Nat}, idxIn i l = some k → l.get? k = some i := by
  intro l
  induction l with
  | nil => intro k h; cases h
  | cons j js ih =>
      intro k h
      unfold idxIn at h
      by_cases hij : i = j
      · simp only [hij, if_pos rfl] at h
        cases h
        simp [hij]
      · simp only [hij, if_false, Option.map_eq_some'] at h
        obtain ⟨k', hk', rfl⟩ := h
        simpa using ih hk'

/-- A found position is inside the list. -/
theorem idxIn_lt_length {i : Nat} {l : List Nat} {k : Nat}
    (h : idxIn i l = some k) : k < l.length :=
  List.get?_eq_some.mp (idxIn_get h) |>.1

/-- Membership is preserved by ascending insertion. -/
theorem mem_insertAsc {x i : Nat} :
    ∀ {l : List Nat}, x ∈ insertAsc i l ↔ x = i ∨ x ∈ l := by
  intro l
  induction l with
  | nil => simp [insertAsc]
  | cons j js ih =>
      unfold insertAsc
      by_cases hij : i ≤ j
      · simp [hij]
      · simp only [hij, if_false, List.mem_cons, ih]
        tauto

/-- Membership is preserved by sorting. -/
theorem mem_sortAsc {x : Nat} :
    ∀ {l : List Nat}, x ∈ sortAsc l ↔ x ∈ l := by
  intro l
  induction l with
  | nil => simp [sortAsc]
  | cons i is ih => simp [sortAsc, mem_insertAsc, ih]

/-- Insertion sort preserves length. -/
theorem length_insertAsc (i : Nat) :
    ∀ (l : List Nat), (insertAsc i l).length = l.length + 1 := by
  intro l
  induction l with
  | nil => rfl
  | cons j js ih =>
      unfold insertAsc
      by_cases hij : i ≤ j <;> simp [hij, ih]

/-- Sorting preserves length. -/
theorem length_sortAsc : ∀ (l : List Nat), (sortAsc l).length = l.length := by
  intro l
  induction l with
  | nil => rfl
  | cons i is ih => simp [sortAsc, length_insertAsc, ih]

/-- The assigned-id table is no longer than the dataset. -/
theorem length_assignedIds_le (ds : List CanonicalProfile) :
    (assignedIds ds).length ≤ ds.length := by
  unfold assignedIds
  rw [length_sortAsc]
  calc (ds.map fun p => p.id).dedup.length
      ≤ (ds.map fun p => p.id).length :=
        (List.dedup_sublist _).length_le
    _ = ds.length := List.length_map _ _

/-- Every dataset id has an assigned pseudonym. -/
theorem pseudonymOf_isSome {ds : List CanonicalProfile}
    {p : CanonicalProfile} (hp : p ∈ ds) : (pseudonymOf ds p.id).isSome := by
  unfold pseudonymOf
  rw [Option.isSome_map']
  apply idxIn_isSome_of_mem
  unfold assignedIds
  rw [mem_sortAsc, List.mem_dedup]
  exact List.mem_map_of_mem (fun p => p.id) hp

/-- Everything `mapOrFail` returns comes from a source element. -/
theorem mapOrFail_mem_source {f : α → Option β} :
    ∀ {l : List α} {bs : List β}, mapOrFail f l = some bs →
      ∀ b ∈ bs, ∃ a ∈ l, f a = some b := by
  intro l
  induction l with
  | nil =>
      intro bs h b hb
      cases h
      cases hb
  | cons a as ih =>
      intro bs h b hb
      unfold mapOrFail at h
      cases hfa : f a with
      | none => rw [hfa] at h; cases h
      | some b' =>
          rw [hfa] at h
          cases hrest : mapOrFail f as with
          | none => rw [hrest] at h; cases h
          | some bs' =>
              rw [hrest] at h
              cases h
              rcases List.mem_cons.mp hb with rfl | hmem
              · exact ⟨a, List.mem_cons_self a as, hfa⟩
              · obtain ⟨x, hx, hfx⟩ := ih hrest b hmem
                exact ⟨x, List.mem_cons_of_mem a hx, hfx⟩

end AnonymizationLemmas

/-- C1: for every workstream the computed total budget equals the sum
over all profile allocations to it of `days_allocated × daily_rate`
(the spec's `workstream_budget` formula), and on the scenario
`[(P1,"Alice",WS1,10),(P2,"Bob",WS1,5)]` with rates 100 and 200 the
computed budget of WS1 is 2000. -/
theorem C1_workstream_budget_correct :
    (∀ (profiles : List Profile) (workstreams : List Workstream),
      (fetchWorkstreamBudgets profiles workstreams).map
          (fun e => e.totalBudget) =
        workstreams.map (workstream_budget profiles)) ∧
    (fetchWorkstreamBudgets [alice, bob] [ws1]).map
        (fun e => e.totalBudget) = [2000] := by
  constructor
  · intro profiles workstreams
    unfold fetchWorkstreamBudgets
    rw [List.map_map]
    exact List.map_congr_left fun w _ =>
      totalBudget_eq_workstream_budget profiles w
  · simp [fetchWorkstreamBudgets, totalBudget, workstreamAllocations,
      alice, bob, ws1]
    norm_num

/-- C10 counterexample: "toString" is none of the nine currency codes,
yet `getCurrencySymbol` does not return it unchanged — the object
literal inherits a truthy `toString` member from `Object.prototype`,
so the source returns that function instead of the input string. -/
theorem C10_getCurrencySymbol_counterexample :
    "toString" ∉ symbols.map Prod.fst ∧
    getCurrencySymbol "toString" ≠ JsValue.str "toString" := by
  exact ⟨by decide, by decide⟩

/-- C10 (amended): `getCurrencySymbol` maps each of the nine known
currency codes to its display symbol; every other string that is not an
`Object.prototype` member name is returned unchanged; for an
`Object.prototype` member name the inherited (truthy, non-string) value
is returned instead of the input. -/
theorem C10_getCurrencySymbol_behavior :
    (getCurrencySymbol "USD" = JsValue.str "$" ∧
     getCurrencySymbol "EUR" = JsValue.str "€" ∧
     getCurrencySymbol "GBP" = JsValue.str "£" ∧
     getCurrencySymbol "JPY" = JsValue.str "¥" ∧
     getCurrencySymbol "AUD" = JsValue.str "A$" ∧
     getCurrencySymbol "CAD" = JsValue.str "C$" ∧
     getCurrencySymbol "CHF" = JsValue.str "CHF" ∧
     getCurrencySymbol "CNY" = JsValue.str "¥" ∧
     getCurrencySymbol "INR" = JsValue.str "₹") ∧
    (∀ s : String, s ∉ symbols.map Prod.fst → s ∉ protoKeys →
      getCurrencySymbol s = JsValue.str s) ∧
    (∀ s ∈ protoKeys, getCurrencySymbol s = JsValue.inherited s) := by
  refine ⟨by decide, ?_, by decide⟩
  intro s hs hp
  simp only [symbols, List.map_cons, List.map_nil, List.mem_cons,
    List.not_mem_nil, or_false, not_or] at hs
  obtain ⟨h1, h2, h3, h4, h5, h6, h7, h8, h9⟩ := hs
  simp [getCurrencySymbol, symbols, List.lookup, hp,
    beq_false_of_ne h1, beq_false_of_ne h2, beq_false_of_ne h3,
    beq_false_of_ne h4, beq_false_of_ne h5, beq_false_of_ne h6,
    beq_false_of_ne h7, beq_false_of_ne h8, beq_false_of_ne h9]

/-- Witness for C10: a code outside the table and outside the inherited
property names comes back unchanged. -/
theorem C10_getCurrencySymbol_behavior_witness :
    getCurrencySymbol "XXX" = JsValue.str "XXX" :=
  C10_getCurrencySymbol_behavior.2.1 "XXX" (by decide) (by decide)

/-- C8: under the precondition that every allocation's workstream id
occurs in the fetched workstream list, the profile-budget computation
never reaches the unguarded-dereference fault; and on a concrete input
with an allocation to an absent workstream id it faults. -/
theorem C8_profile_budget_partiality :
    (∀ (profiles : List Profile) (workstreams : List Workstream),
      allAllocationsResolve profiles workstreams →
        (fetchProfileBudgets profiles workstreams).isSome) ∧
    fetchProfileBudgets [strayProfile] [ws1] = none := by
  constructor
  · intro profiles workstreams h
    apply mapOrFail_isSome_of_forall
    intro p hp
    unfold profileBudget
    rw [Option.isSome_map']
    exact mapOrFail_isSome_of_forall fun a ha =>
      profileAllocEntry_isSome (h p hp a ha)
  · rfl

/-- Witness for C8: on the resolving scenario input the computation
succeeds. -/
theorem C8_profile_budget_partiality_witness :
    (fetchProfileBudgets [alice, bob] [ws1]).isSome :=
  C8_profile_budget_partiality.1 [alice, bob] [ws1] (by decide)

/-- C9: the data-review rendering is total: an allocation whose
workstream id matches no fetched workstream is rendered with the literal
"Unknown" in the workstream column (no fault), and a profile with an
empty workstream list yields exactly one row with "-" in the workstream
and days columns. -/
theorem C9_data_review_total :
    (∀ (workstreams : List Workstream) (p : Profile),
      ∀ a ∈ p.workstreams,
        (workstreams.find? fun w => w.id = a.workstream_id) = none →
          ∃ r ∈ profileReviewRows workstreams p,
            r.workstreamCell = Cell.str "Unknown" ∧
              r.daysCell = Cell.num a.days_allocated) ∧
    (∀ (workstreams : List Workstream) (p : Profile),
      p.workstreams = [] →
        profileReviewRows workstreams p =
          [{ nameCell := Cell.str p.name,
             rateCell := Cell.num p.daily_rate,
             workstreamCell := Cell.str "-",
             daysCell := Cell.str "-" }]) := by
  constructor
  · intro workstreams p a ha hnone
    refine ⟨allocationRow workstreams p a, ?_, ?_, rfl⟩
    · unfold profileReviewRows
      match hw : p.workstreams with
      | [] => rw [hw] at ha; cases ha
      | x :: xs =>
          rw [hw] at ha
          exact List.mem_map_of_mem (allocationRow workstreams p) ha
    · simp [allocationRow, hnone]
  · intro workstreams p hempty
    unfold profileReviewRows
    rw [hempty]

/-- Witness for C9: a profile with no allocations renders exactly the
dash row. -/
theorem C9_data_review_total_witness :
    profileReviewRows [ws1]
        { id := 9, name := "Idle", daily_rate := 10, workstreams := [] } =
      [{ nameCell := Cell.str "Idle", rateCell := Cell.num 10,
         workstreamCell := Cell.str "-", daysCell := Cell.str "-" }] :=
  C9_data_review_total.2 [ws1]
    { id := 9, name := "Idle", daily_rate := 10, workstreams := [] } rfl

/-- C6: a workstream with zero allocations has computed budget 0, and
utilization against that zero budget is the explicit not-applicable
value (`none`), not a number and not a fault. -/
theorem C6_zero_allocation_workstream
    (profiles : List Profile) (w : Workstream) (spent : ℚ)
    (h : ∀ p ∈ profiles, ∀ a ∈ p.workstreams, a.workstream_id ≠ w.id) :
    totalBudget profiles w = 0 ∧
      utilization spent (totalBudget profiles w) = none := by
  have hb : totalBudget profiles w = 0 := by
    have hempty : workstreamAllocations profiles w = [] := by
      unfold workstreamAllocations
      rw [List.flatMap_eq_nil_iff]
      intro p hp
      simp only [List.map_eq_nil_iff, List.filter_eq_nil_iff]
      intro a ha
      simp [h p hp a ha]
    unfold totalBudget
    rw [hempty]
    rfl
  exact ⟨hb, by simp [hb, utilization]⟩

/-- Witness for C6: a concrete workstream nobody allocates to. -/
theorem C6_zero_allocation_workstream_witness :
    totalBudget [alice, bob]
        { id := 2, name := "WS2", description := "", status := "active" } =
        0 ∧
      utilization 5
          (totalBudget [alice, bob]
            { id := 2, name := "WS2", description := "",
              status := "active" }) = none :=
  C6_zero_allocation_workstream [alice, bob]
    { id := 2, name := "WS2", description := "", status := "active" } 5
    (by decide)

/-- C2 counterexample: with the duplicate-id workstream list
`[ws1, ws1dup]` every allocation of the single profile references an
existing workstream (the claim's stated hypothesis holds), yet the sum
of workstream budgets is 2000 while the sum of profile totals is
1000. -/
theorem C2_reconciliation_counterexample :
    allAllocationsResolve [alice] [ws1, ws1dup] ∧
    ((fetchWorkstreamBudgets [alice] [ws1, ws1dup]).map
        (fun e => e.totalBudget)).sum = 2000 ∧
    (fetchProfileBudgets [alice] [ws1, ws1dup]).map
        (fun es => (es.map fun e => e.totalBudget).sum) = some 1000 ∧
    (2000 : ℚ) ≠ 1000 := by
  refine ⟨by decide, ?_, ?_, by norm_num⟩
  · simp [fetchWorkstreamBudgets, totalBudget, workstreamAllocations,
      alice, ws1, ws1dup]
    norm_num
  · simp [fetchProfileBudgets, mapOrFail, profileBudget,
      profileAllocEntry, List.find?, alice, ws1, ws1dup]
    norm_num

/-- C2 (amended): for inputs in which every allocation references an
existing workstream and the fetched workstream ids are pairwise
distinct, the profile-budget computation succeeds and the sum of the
computed workstream budgets equals the sum of the computed profile
totals. -/
theorem C2_reconciliation (ps : List Profile) (wss : List Workstream)
    (h1 : allAllocationsResolve ps wss)
    (h2 : (wss.map fun w => w.id).Nodup) :
    (fetchProfileBudgets ps wss).map
        (fun entries => (entries.map fun e => e.totalBudget).sum) =
      some (((fetchWorkstreamBudgets ps wss).map
        fun e => e.totalBudget).sum) := by
  obtain ⟨entries, hsome, hmap⟩ := fetchProfileBudgets_totals ps wss h1
  rw [hsome, Option.map_some']
  congr 1
  rw [hmap]
  have hfetch : (fetchWorkstreamBudgets ps wss).map (fun e => e.totalBudget) =
      wss.map fun w =>
        (ps.map fun p => days_allocated_on p w * p.daily_rate).sum := by
    unfold fetchWorkstreamBudgets
    rw [List.map_map]
    apply List.map_congr_left
    intro w _
    have h := totalBudget_eq_workstream_budget ps w
    unfold workstream_budget at h
    exact h
  rw [hfetch, list_sum_comm]
  apply congrArg
  apply List.map_congr_left
  intro p hp
  exact (profile_sum_over_workstreams wss p h2 (h1 p hp)).symm

/-- Witness for C2. -/
theorem C2_reconciliation_witness :
    (fetchProfileBudgets [alice, bob] [ws1]).map
        (fun entries => (entries.map fun e => e.totalBudget).sum) =
      some (((fetchWorkstreamBudgets [alice, bob] [ws1]).map
        fun e => e.totalBudget).sum) :=
  C2_reconciliation [alice, bob] [ws1] (by decide) (by decide)

/-- C4: for one dataset the pseudonym assignment is total on the
dataset's canonical ids, injective (no collisions), and reading the
public endpoint twice without a new upload yields identical results. -/
theorem C4_pseudonym_total_injective_stable :
    (∀ (ds : List CanonicalProfile), ∀ p ∈ ds,
        (pseudonymOf ds p.id).isSome) ∧
    (∀ (ds : List CanonicalProfile) (i j : Nat) (s : String),
        pseudonymOf ds i = some s → pseudonymOf ds j = some s → i = j) ∧
    (∀ ds : List CanonicalProfile,
        readProfilesEndpoint ds = readProfilesEndpoint ds) := by
  refine ⟨fun ds p hp => pseudonymOf_isSome hp, ?_, fun ds => rfl⟩
  intro ds i j s hi hj
  unfold pseudonymOf at hi hj
  obtain ⟨ki, hki, hsi⟩ := Option.map_eq_some'.mp hi
  obtain ⟨kj, hkj, hsj⟩ := Option.map_eq_some'.mp hj
  have hk : ki = kj := by
    have hpp := hsj.trans hsi.symm
    have hkk := pseudonym_inj (Nat.succ_pos kj) (Nat.succ_pos ki) hpp
    omega
  rw [hk] at hki
  have h1 := idxIn_get hki
  have h2 := idxIn_get hkj
  rw [h1] at h2
  exact (Option.some.injEq _ _).mp h2

/-- Witness for C4: on a concrete two-profile dataset the first
profile's pseudonym exists, equal pseudonyms pin equal ids, and the
read is stable. -/
theorem C4_pseudonym_total_injective_stable_witness :
    (pseudonymOf [⟨1, "Alice", 100, []⟩, ⟨2, "Bob", 200, []⟩] 1).isSome ∧
    (1 : Nat) = 1 ∧
    readProfilesEndpoint [⟨1, "Alice", 100, []⟩] =
      readProfilesEndpoint [⟨1, "Alice", 100, []⟩] :=
  ⟨C4_pseudonym_total_injective_stable.1
      [⟨1, "Alice", 100, []⟩, ⟨2, "Bob", 200, []⟩]
      ⟨1, "Alice", 100, []⟩ (by decide),
   C4_pseudonym_total_injective_stable.2.1
      [⟨1, "Alice", 100, []⟩, ⟨2, "Bob", 200, []⟩] 1 1 (pseudonym 1)
      (by decide) (by decide),
   C4_pseudonym_total_injective_stable.2.2 [⟨1, "Alice", 100, []⟩]⟩

/-- C3 counterexample: when a raw profile is literally named
"Profile_1", the public `GET profiles` response contains that raw
name — the non-identity property as stated fails. -/
theorem C3_anonymization_counterexample :
    "Profile_1" ∈ selfNamedDataset.map (fun p => p.name) ∧
    "Profile_1" ∈ publicProfileNames selfNamedDataset := by
  constructor
  · decide
  · decide

/-- C3 (amended): provided no raw profile name is itself a pseudonym
token of the assignable range, no public response name equals any raw
profile name. -/
theorem C3_anonymization_non_identity (ds : List CanonicalProfile)
    (h : ∀ p ∈ ds, ∀ n ≤ ds.length, p.name ≠ pseudonym n) :
    ∀ s ∈ publicProfileNames ds, ∀ p ∈ ds, s ≠ p.name := by
  intro s hs p hp
  unfold publicProfileNames at hs
  cases hread : readProfilesEndpoint ds with
  | none => rw [hread] at hs; cases hs
  | some l =>
      rw [hread] at hs
      obtain ⟨ap, hap, rfl⟩ := List.mem_map.mp hs
      obtain ⟨q, hq, hfq⟩ :=
        mapOrFail_mem_source hread ap hap
      unfold anonymizeProfile at hfq
      obtain ⟨s', hs', hap'⟩ := Option.map_eq_some'.mp hfq
      unfold pseudonymOf at hs'
      obtain ⟨k, hk, rfl⟩ := Option.map_eq_some'.mp hs'
      have hklt : k < (assignedIds ds).length := idxIn_lt_length hk
      have hbound : k + 1 ≤ ds.length :=
        Nat.succ_le_of_lt (lt_of_lt_of_le hklt (length_assignedIds_le ds))
      have hname : ap.name = pseudonym (k + 1) := by
        rw [← hap']
      rw [hname]
      exact fun hc => h p hp (k + 1) hbound hc.symm

/-- Witness for C3: on the Alice/Bob dataset the first response name,
"Profile_1", differs from the raw name "Alice". -/
theorem C3_anonymization_non_identity_witness :
    ("Profile_1" : String) ≠ "Alice" :=
  C3_anonymization_non_identity
    [⟨1, "Alice", 100, []⟩, ⟨2, "Bob", 200, []⟩] (by decide)
    "Profile_1" (by decide) ⟨1, "Alice", 100, []⟩ (by decide)

/-- C7: the parser accepts both decimal conventions ("1.234,56" and
"1,234.56" both parse to 1234.56), rejects an ambiguous file ("1.234"
is valid under both conventions with materially different values), and
parsing then re-serializing reproduces the numeric value in normalized
form ("1.234,56" → 1234.56 → "1234.56"). -/
theorem C7_locale_number_parsing :
    detectAndParseColumn ["1.234,56"] = some [1234.56] ∧
    detectAndParseColumn ["1,234.56"] = some [1234.56] ∧
    detectAndParseColumn ["1.234"] = none ∧
    (detectAndParseColumn ["1.234,56"]).map (fun l => l.map serializeQ) =
      some ["1234.56"] := by
  refine ⟨?_, ?_, ?_, ?_⟩ <;> with_unfolding_all rfl

set_option maxRecDepth 8000 in
/-- C5 counterexample: for the uploaded decimal allocations 0.1 and 0.2
at rate 1, the binary64 computation the code performs does not equal the
exact decimal sum 0.3 — the monetary aggregation is not carried out in
fixed-point/decimal arithmetic and drifts. -/
theorem C5_float_drift_counterexample :
    totalBudget [decimalProfile] ws1 = 3 / 10 ∧
    totalBudgetFloat [floatProfile] ws1 ≠ totalBudget [decimalProfile] ws1 := by
  have hexact : totalBudget [decimalProfile] ws1 = 3 / 10 := by
    with_unfolding_all rfl
  have h1 : roundDouble (1 / 10) =
      (3602879701896397 : ℚ) / 36028797018963968 := by
    with_unfolding_all rfl
  have h2 : roundDouble (2 / 10) =
      (3602879701896397 : ℚ) / 18014398509481984 := by
    with_unfolding_all rfl
  have e1 : jsMul ((3602879701896397 : ℚ) / 36028797018963968) 1 =
      (3602879701896397 : ℚ) / 36028797018963968 := by
    with_unfolding_all rfl
  have e2 : jsMul ((3602879701896397 : ℚ) / 18014398509481984) 1 =
      (3602879701896397 : ℚ) / 18014398509481984 := by
    with_unfolding_all rfl
  have e3 : jsAdd 0 ((3602879701896397 : ℚ) / 36028797018963968) =
      (3602879701896397 : ℚ) / 36028797018963968 := by
    with_unfolding_all rfl
  have e4 : jsAdd ((3602879701896397 : ℚ) / 36028797018963968)
        ((3602879701896397 : ℚ) / 18014398509481984) =
      (1351079888211149 : ℚ) / 4503599627370496 := by
    with_unfolding_all rfl
  have hfloat : totalBudgetFloat [floatProfile] ws1 =
      (1351079888211149 : ℚ) / 4503599627370496 := by
    simp only [totalBudgetFloat, workstreamAllocations, floatProfile, ws1,
      List.flatMap_cons, List.flatMap_nil, List.filter_cons, List.map_cons,
      List.map_nil, List.append_nil, List.foldl_cons, List.foldl_nil,
      List.filter_nil, decide_True, if_true, h1, h2]
    rw [e1, e3, e2, e4]
  refine ⟨hexact, ?_⟩
  rw [hexact, hfloat]
  norm_num

set_option maxRecDepth 8000 in
/-- C5 (amended): the aggregation is computed in IEEE-754 binary64
floating point; on the 0.1 + 0.2 upload it produces the drifted value
0.30000000000000004 (= 1351079888211149 / 2⁵²), not the decimal 0.3. -/
theorem C5_float_semantics :
    jsAdd (roundDouble (1 / 10)) (roundDouble (2 / 10)) =
      (1351079888211149 : ℚ) / 4503599627370496 ∧
    (1351079888211149 : ℚ) / 4503599627370496 ≠ 3 / 10 := by
  have h1 : roundDouble (1 / 10) =
      (3602879701896397 : ℚ) / 36028797018963968 := by
    with_unfolding_all rfl
  have h2 : roundDouble (2 / 10) =
      (3602879701896397 : ℚ) / 18014398509481984 := by
    with_unfolding_all rfl
  have e4 : jsAdd ((3602879701896397 : ℚ) / 36028797018963968)
        ((3602879701896397 : ℚ) / 18014398509481984) =
      (1351079888211149 : ℚ) / 4503599627370496 := by
    with_unfolding_all rfl
  refine ⟨?_, by norm_num⟩
  rw [h1, h2, e4]

end PM
